import Mathlib

/-!
Verification development for the opmonlib monitoring core
(`src/MonitorableObject.cpp` and `OpMonContainer.hpp`).

The C++ code is shallowly embedded:

* a `MonitorableObject` tree is the inductive `MNode`: its own atomic
  counters (`m_published_counter`, `m_ignored_counter`, `m_error_counter`,
  `m_cpu_us_counter`), the behaviour of its `generate_opmon_data` hook this
  round (`HookOutcome`), the wall-clock duration the `collect` call will
  measure for itself (an oracle input, since real clocks are outside the
  model), and its child registry `m_nodes`, a `Registry`: an ordered list of
  named weak links, each either still resolvable (`live`, carrying the child
  subtree) or expired (`stale`);
* `MonitorableObject::collect` is `collect` / `collectLoop`, returning the
  `MonitoringTreeInfo` protobuf record together with the post-call node state
  (counters exchanged to zero, stale links pruned);
* `MonitorableObject::register_node` is `register_node` over an
  association-list registry with an explicit liveness oracle for weak
  pointers;
* `MonitorableObject::publish` is `publish`, abstracting the flattened entry
  produced by `to_entry` (whose source is in `Utils.hpp`, outside the given
  sources) as an input data mapping, the facility outcome as a boolean, and
  the measured call duration as an oracle input;
* `OpMonContainer::add` is `OpMonContainer.add` over a protobuf-reflection
  model (`ProtoMessage`, `ProtoField`, field kinds `CppType`).
-/

/-- Behaviour of the subclass-provided `generate_opmon_data()` hook during one
`collect()` call, as seen by the three catch blocks of
`MonitorableObject::collect` (MonitorableObject.cpp lines 111-127):
it either returns normally, throws an `ers::Issue` carrying a chain of
`causes` chained cause issues, throws a `std::exception`, or throws anything
else. -/
inductive HookOutcome where
  | ok : HookOutcome
  | ersIssue : Nat → HookOutcome
  | stdExc : HookOutcome
  | unknownExc : HookOutcome
deriving DecidableEq, Repr

/-- Number of `++m_error_counter` increments performed by the catch ladder of
`MonitorableObject::collect` (lines 113-127): an `ers::Issue` counts one for
itself plus one per link of its cause chain; a `std::exception` or an unknown
exception counts one; a normal return counts none. -/
def hookErrorIncrements : HookOutcome → Nat
  | .ok => 0
  | .ersIssue causes => 1 + causes
  | .stdExc => 1
  | .unknownExc => 1

/-- The per-node mutable state of a `MonitorableObject` that `collect` and
`publish` read and write: the four atomic counters, the hook behaviour for
this round, and the wall-clock duration this node's `collect` call will
measure for itself (`stop_time - start_time` of lines 103/171-174). -/
structure OwnState where
  published : Nat
  ignored : Nat
  errors : Nat
  cpu_us : Nat
  hook : HookOutcome
  wall_us : Nat
deriving DecidableEq, Repr

mutual
/-- A live `MonitorableObject` together with everything reachable from it. -/
inductive MNode where
  | mk : OwnState → Registry → MNode
deriving Repr

/-- The child registry `m_nodes` (`std::map<ElementId, std::weak_ptr<...>>`)
of one node at the moment `collect` traverses it: each named entry is a weak
pointer that is either still resolvable to a live child or already expired. -/
inductive Registry where
  | nil : Registry
  | live : String → MNode → Registry → Registry
  | stale : String → Registry → Registry
deriving Repr
end

/-- `m_nodes.size()`: the number of registry entries, expired ones
included. -/
def Registry.size : Registry → Nat
  | .nil => 0
  | .live _ _ r => 1 + r.size
  | .stale _ r => 1 + r.size

/-- The names currently present in a registry. -/
def Registry.names : Registry → List String
  | .nil => []
  | .live nm _ r => nm :: r.names
  | .stale nm r => nm :: r.names

/-- The `dunedaq::opmon::MonitoringTreeInfo` protobuf record returned by
`collect`; protobuf numeric fields default to zero. -/
structure MonitoringTreeInfo where
  n_registered_nodes : Nat := 0
  n_publishing_nodes : Nat := 0
  n_invalid_links : Nat := 0
  n_published_measurements : Nat := 0
  n_ignored_measurements : Nat := 0
  n_errors : Nat := 0
  cpu_elapsed_time_us : Nat := 0
  clockwall_elapsed_time_us : Nat := 0
deriving DecidableEq, Repr

/-- The seven-field merge of a resolved child's `collect()` result into the
running result, exactly the assignments of MonitorableObject.cpp lines
150-156 (`clockwall_elapsed_time_us` has no corresponding assignment
there). -/
def mergeChildInfo (info ci : MonitoringTreeInfo) : MonitoringTreeInfo :=
  { info with
    n_registered_nodes := info.n_registered_nodes + ci.n_registered_nodes
    n_publishing_nodes := info.n_publishing_nodes + ci.n_publishing_nodes
    n_invalid_links := info.n_invalid_links + ci.n_invalid_links
    n_published_measurements :=
      info.n_published_measurements + ci.n_published_measurements
    n_ignored_measurements :=
      info.n_ignored_measurements + ci.n_ignored_measurements
    n_errors := info.n_errors + ci.n_errors
    cpu_elapsed_time_us := info.cpu_elapsed_time_us + ci.cpu_elapsed_time_us }

mutual
/-- `MonitorableObject::collect()` (MonitorableObject.cpp lines 101-177).
Returns the `MonitoringTreeInfo` together with the node state after the call:
the hook runs first (its exceptions converted to error-counter increments),
the four counters are exchanged to zero, `n_registered_nodes` starts at
`m_nodes.size()`, `n_publishing_nodes` is 1 iff this node itself published,
the child loop merges each resolved child's result (seven fields) and prunes
expired links while counting them, and `clockwall_elapsed_time_us` is set at
the end to this call's own measured duration. -/
def collect : MNode → MonitoringTreeInfo × MNode
  | .mk own r =>
    let errors := own.errors + hookErrorIncrements own.hook
    let info0 : MonitoringTreeInfo :=
      { n_registered_nodes := r.size
        n_publishing_nodes := if own.published > 0 then 1 else 0
        n_invalid_links := 0
        n_published_measurements := own.published
        n_ignored_measurements := own.ignored
        n_errors := errors
        cpu_elapsed_time_us := own.cpu_us
        clockwall_elapsed_time_us := 0 }
    let res := collectLoop r info0
    ({ res.1 with
        n_invalid_links := res.1.n_invalid_links + res.2.1
        clockwall_elapsed_time_us := own.wall_us },
     .mk { own with published := 0, ignored := 0, errors := 0, cpu_us := 0 }
        res.2.2)

/-- The child loop of `collect` (lines 142-166): threads the running info
through the registry in order, merging each resolved child's own `collect()`
result, and returns the local `n_invalid_links` counter of erased expired
entries together with the surviving registry. -/
def collectLoop : Registry → MonitoringTreeInfo →
    MonitoringTreeInfo × Nat × Registry
  | .nil, info => (info, 0, .nil)
  | .live nm child rest, info =>
    let c := collect child
    let res := collectLoop rest (mergeChildInfo info c.1)
    (res.1, res.2.1, .live nm c.2 res.2.2)
  | .stale _ rest, info =>
    let res := collectLoop rest info
    (res.1, res.2.1 + 1, res.2.2)
end

/-- The own state stored at the root of a node. -/
def MNode.own : MNode → OwnState
  | .mk own _ => own

/-- The registry stored at the root of a node. -/
def MNode.registry : MNode → Registry
  | .mk _ r => r

/-- Number of live (resolvable) entries at the top level of a registry. -/
def liveTopR : Registry → Nat
  | .nil => 0
  | .live _ _ r => 1 + liveTopR r
  | .stale _ r => liveTopR r

/-- Number of expired entries at the top level of a registry. -/
def staleTopR : Registry → Nat
  | .nil => 0
  | .live _ _ r => staleTopR r
  | .stale _ r => 1 + staleTopR r

/-- Specification-side summary of a subtree: the whole-tree sums that one
`collect()` call on its root reports. -/
structure Totals where
  reg : Nat
  pubNodes : Nat
  staleAll : Nat
  pub : Nat
  ign : Nat
  err : Nat
  cpu : Nat
deriving DecidableEq, Repr

/-- Field-wise sum of two summaries. -/
def Totals.add (a b : Totals) : Totals :=
  ⟨a.reg + b.reg, a.pubNodes + b.pubNodes, a.staleAll + b.staleAll,
   a.pub + b.pub, a.ign + b.ign, a.err + b.err, a.cpu + b.cpu⟩

mutual
/-- Whole-subtree sums for one node: registry sizes, publishing nodes,
stale links, and the four exchanged counters (errors including the hook's
increments), each summed over the node and all its live descendants. -/
def totals : MNode → Totals
  | .mk own r =>
    let t := totalsR r
    { reg := r.size + t.reg
      pubNodes := (if own.published > 0 then 1 else 0) + t.pubNodes
      staleAll := staleTopR r + t.staleAll
      pub := own.published + t.pub
      ign := own.ignored + t.ign
      err := own.errors + hookErrorIncrements own.hook + t.err
      cpu := own.cpu_us + t.cpu }

/-- Sum of `totals` over the live entries of a registry. -/
def totalsR : Registry → Totals
  | .nil => ⟨0, 0, 0, 0, 0, 0, 0⟩
  | .live _ c r => (totals c).add (totalsR r)
  | .stale _ r => totalsR r
end

mutual
/-- Spec-side count of the live nodes reachable from a node, the node itself
included ("the number of currently live nodes reachable from the root (root
itself included)"). -/
def liveNodes : MNode → Nat
  | .mk _ r => 1 + liveNodesR r

/-- Sum of `liveNodes` over the live entries of a registry. -/
def liveNodesR : Registry → Nat
  | .nil => 0
  | .live _ c r => liveNodes c + liveNodesR r
  | .stale _ r => liveNodesR r
end

mutual
/-- Spec-side description of the node state after `collect`: all four
counters exchanged to zero and every expired registry entry pruned, at every
live node of the subtree. -/
def pruneSpec : MNode → MNode
  | .mk own r =>
    .mk { own with published := 0, ignored := 0, errors := 0, cpu_us := 0 }
      (pruneR r)

/-- Spec-side pruning of one registry level: expired entries are dropped,
live entries survive with their child recursively collected. -/
def pruneR : Registry → Registry
  | .nil => .nil
  | .live nm c r => .live nm (pruneSpec c) (pruneR r)
  | .stale _ r => pruneR r
end

/-- The `MonitoringTreeInfo` that `collect` on a node is claimed to return:
the whole-subtree sums, except that `clockwall_elapsed_time_us` is only this
node's own measured duration. -/
def infoOf (n : MNode) : MonitoringTreeInfo :=
  { n_registered_nodes := (totals n).reg
    n_publishing_nodes := (totals n).pubNodes
    n_invalid_links := (totals n).staleAll
    n_published_measurements := (totals n).pub
    n_ignored_measurements := (totals n).ign
    n_errors := (totals n).err
    cpu_elapsed_time_us := (totals n).cpu
    clockwall_elapsed_time_us := n.own.wall_us }

/-- Adding a summary onto a running info record, leaving the clockwall field
alone (as the merge loop of `collect` does). -/
def addTotals (info : MonitoringTreeInfo) (t : Totals) : MonitoringTreeInfo :=
  { info with
    n_registered_nodes := info.n_registered_nodes + t.reg
    n_publishing_nodes := info.n_publishing_nodes + t.pubNodes
    n_invalid_links := info.n_invalid_links + t.staleAll
    n_published_measurements := info.n_published_measurements + t.pub
    n_ignored_measurements := info.n_ignored_measurements + t.ign
    n_errors := info.n_errors + t.err
    cpu_elapsed_time_us := info.cpu_elapsed_time_us + t.cpu }


/-- Sum of a field of each resolved child's own `collect()` result over the
live entries of a registry: the quantity that the merge loop of `collect`
adds onto the parent's running record for that field. -/
def sumCollected (f : MonitoringTreeInfo → Nat) : Registry → Nat
  | .nil => 0
  | .live _ c r => f (collect c).1 + sumCollected f r
  | .stale _ r => sumCollected f r

/-- Result of `MonitorableObject::register_node`: the registry after the
call, the side effects applied to the new child (the `m_opmon_name`
assignment and the `inherit_parent_properties` call, executed only on
success), whether `ers::warning` was emitted, and whether the call threw
`NonUniqueNodeName`. -/
structure RegisterResult where
  nodes : List (String × Nat)
  childName : Option String
  childInherited : Bool
  warned : Bool
  threw : Bool
deriving DecidableEq, Repr

/-- `std::map` insert-or-assign `m_nodes[name] = p` on an association list
(key ordering is irrelevant to the claims). -/
def mapSet {α : Type} (name : String) (v : α) :
    List (String × α) → List (String × α)
  | [] => [(name, v)]
  | (n, w) :: rest =>
    if n = name then (n, v) :: rest else (n, w) :: mapSet name v rest

/-- `MonitorableObject::register_node` (MonitorableObject.cpp lines 32-55).
Weak pointers are node ids together with a liveness oracle `alive`
(`expired()` is `!alive`): a live holder of `name` makes the call throw
before any mutation; an expired holder only triggers a warning and is
overwritten; otherwise the entry is fresh. -/
def register_node (nodes : List (String × Nat)) (alive : Nat → Bool)
    (name : String) (p : Nat) : RegisterResult :=
  match nodes.lookup name with
  | some q =>
    if alive q then
      { nodes := nodes, childName := none, childInherited := false
        warned := false, threw := true }
    else
      { nodes := mapSet name p nodes, childName := some name
        childInherited := true, warned := true, threw := false }
  | none =>
      { nodes := mapSet name p nodes, childName := some name
        childInherited := true, warned := false, threw := false }

/-- Modelled from the spec: `MonitorableObject::publishable_metric` is
declared in `MonitorableObject.hpp`, which is not among the given sources.
Per the spec, "a measurement publishes iff its level ≤ the configured
level". -/
def publishable_metric (l configured : Nat) : Bool := decide (l ≤ configured)

/-- Tagged scalar `dunedaq::opmon::OpMonValue`: the given sources only ever
set the `int4_value` arm (OpMonContainer.hpp line 61); a default-constructed
value has no arm set. -/
inductive OpMonValue where
  | unset : OpMonValue
  | int4_value : Int → OpMonValue
deriving DecidableEq, Repr

/-- The four running counters of a node that `publish` touches. -/
structure PublishCounters where
  published : Nat
  ignored : Nat
  errors : Nat
  cpu_us : Nat
deriving DecidableEq, Repr

/-- Result of one `publish` call: the counters afterwards, whether the
facility's `publish` was invoked, and whether the `EntryWithNoData` warning
was emitted. -/
structure PublishResult where
  counters : PublishCounters
  sinkCalled : Bool
  warnedNoData : Bool
deriving DecidableEq, Repr

/-- `MonitorableObject::publish` (MonitorableObject.cpp lines 58-98).
`entryData` stands for the `data()` mapping of the Entry built by `to_entry`
(defined in `Utils.hpp`, outside the given sources), `sinkOk` for whether the
facility's `publish` succeeds or throws `OpMonPublishFailure`, and `d` for
the duration `stop_time - start_time` measured by the call (an oracle input).
The level check returns before anything else; an empty data mapping warns and
returns; otherwise the sink is invoked, the success or error counter is
bumped, and only then is `d` accumulated onto `m_cpu_us_counter`. -/
def publish (st : PublishCounters) (l configured : Nat)
    (entryData : List (String × OpMonValue)) (sinkOk : Bool) (d : Nat) :
    PublishResult :=
  if ! publishable_metric l configured then
    { counters := { st with ignored := st.ignored + 1 }
      sinkCalled := false, warnedNoData := false }
  else if entryData.isEmpty then
    { counters := st, sinkCalled := false, warnedNoData := true }
  else if sinkOk then
    { counters :=
        { st with published := st.published + 1, cpu_us := st.cpu_us + d }
      sinkCalled := true, warnedNoData := false }
  else
    { counters :=
        { st with errors := st.errors + 1, cpu_us := st.cpu_us + d }
      sinkCalled := true, warnedNoData := false }

/-- The protobuf `FieldDescriptor::CppType` kinds that the dispatch switch of
`OpMonContainer::add` can encounter. -/
inductive CppType where
  | int32 | int64 | uint32 | uint64 | double | float | bool | enum | string
  | message
deriving DecidableEq, Repr

/-- One declared field of a protobuf message as the reflection loop sees it:
its name, its `is_repeated()` flag, its `cpp_type()`, and the value
`GetInt32` would return for it. -/
structure ProtoField where
  name : String
  is_repeated : Bool
  cpp_type : CppType
  int32_value : Int
deriving DecidableEq, Repr

/-- A protobuf message: its `GetTypeName()` and its descriptor's field
list. -/
structure ProtoMessage where
  type_name : String
  fields : List ProtoField
deriving DecidableEq, Repr

/-- `dunedaq::opmon::OpMonEntry` as `OpMonContainer::add` fills it. -/
structure OpMonEntry where
  time : Nat
  opmon_id : String
  measurement : String
  data : List (String × OpMonValue)
deriving DecidableEq, Repr

/-- The switch of OpMonContainer.hpp lines 59-66: only `CPPTYPE_INT32` sets
the value and leaves `success = true`; every other kind falls to `default`
and the field is skipped. -/
def fieldValue (f : ProtoField) : Option OpMonValue :=
  match f.cpp_type with
  | .int32 => some (.int4_value f.int32_value)
  | _ => none

/-- The field loop of `OpMonContainer::add` (lines 51-69): repeated fields
are skipped unconditionally; a non-repeated field whose kind is mapped is
inserted into the entry's data map by `(*entry.mutable_data())[name] =
value`. -/
def entryDataOf : List ProtoField → List (String × OpMonValue) →
    List (String × OpMonValue)
  | [], data => data
  | f :: rest, data =>
    if f.is_repeated then entryDataOf rest data
    else
      match fieldValue f with
      | some v => entryDataOf rest (mapSet f.name v data)
      | none => entryDataOf rest data

/-- `OpMonContainer::add` (OpMonContainer.hpp lines 34-73): builds the entry,
fills its data mapping from the message's declared fields, and appends it to
`m_entries` only when the mapping is non-empty. -/
def OpMonContainer.add (entries : List OpMonEntry) (m : ProtoMessage)
    (id : String) (now : Nat) : List OpMonEntry :=
  let entry : OpMonEntry :=
    { time := now, opmon_id := id, measurement := m.type_name
      data := entryDataOf m.fields [] }
  if entry.data.length > 0 then entries ++ [entry] else entries

/-- A single leaf node: no registry entries, no activity. -/
def leafNode : MNode := .mk ⟨0, 0, 0, 0, .ok, 0⟩ .nil

/-- Leaf child whose `collect` call measures 5 µs of wall-clock time. -/
def clockwallChild : MNode := .mk ⟨0, 0, 0, 0, .ok, 5⟩ .nil

/-- Parent holding `clockwallChild` as its only (live) registry entry; its
own `collect` call measures 0 µs. -/
def clockwallParent : MNode :=
  .mk ⟨0, 0, 0, 0, .ok, 0⟩ (.live "child" clockwallChild .nil)

/-- The live child A of the pruning scenario. -/
def scenarioChildA : MNode := .mk ⟨0, 0, 0, 0, .ok, 0⟩ .nil

/-- The scenario root R: child A is live, child B's owner dropped it before
the collection pass. -/
def scenarioRootR : MNode :=
  .mk ⟨0, 0, 0, 0, .ok, 0⟩ (.live "A" scenarioChildA (.stale "B" .nil))

mutual
/-- Master characterization of `collect`: the returned record carries the
whole-subtree sums (clockwall excepted, which is this node's own duration),
and the returned node state is the zeroed, pruned tree. -/
theorem collect_eq : ∀ n : MNode, collect n = (infoOf n, pruneSpec n)
  | .mk own r => by
    have hl := collectLoop_eq r
      { n_registered_nodes := r.size
        n_publishing_nodes := if own.published > 0 then 1 else 0
        n_invalid_links := 0
        n_published_measurements := own.published
        n_ignored_measurements := own.ignored
        n_errors := own.errors + hookErrorIncrements own.hook
        cpu_elapsed_time_us := own.cpu_us
        clockwall_elapsed_time_us := 0 }
    simp only [collect, hl, pruneSpec, infoOf, totals, MNode.own, addTotals,
      Prod.mk.injEq, MonitoringTreeInfo.mk.injEq, and_true, true_and]
    omega

/-- Characterization of the child loop: it adds the live children's
whole-subtree sums onto the running record, reports the number of expired
entries of this level, and keeps exactly the live entries. -/
theorem collectLoop_eq : ∀ (r : Registry) (info : MonitoringTreeInfo),
    collectLoop r info = (addTotals info (totalsR r), staleTopR r, pruneR r)
  | .nil, info => by
    simp only [collectLoop, totalsR, addTotals, staleTopR, pruneR, Nat.add_zero]
  | .live nm c rest, info => by
    have hc := collect_eq c
    have hr := collectLoop_eq rest (mergeChildInfo info (infoOf c))
    simp only [collectLoop, hc]
    rw [hr]
    simp only [totalsR, staleTopR, pruneR, addTotals, mergeChildInfo, infoOf,
      Totals.add, Prod.mk.injEq, MonitoringTreeInfo.mk.injEq, and_true,
      true_and]
    omega
  | .stale nm rest, info => by
    have hr := collectLoop_eq rest info
    simp only [collectLoop, hr, totalsR, staleTopR, pruneR,
      Prod.mk.injEq, MonitoringTreeInfo.mk.injEq, and_true, true_and]
    omega
end

/-- A registry's size splits into its live and its expired entries. -/
theorem size_eq_liveTop_add_staleTop : ∀ r : Registry,
    r.size = liveTopR r + staleTopR r
  | .nil => rfl
  | .live nm c rest => by
    have ih := size_eq_liveTop_add_staleTop rest
    simp only [Registry.size, liveTopR, staleTopR]
    omega
  | .stale nm rest => by
    have ih := size_eq_liveTop_add_staleTop rest
    simp only [Registry.size, liveTopR, staleTopR]
    omega

mutual
/-- The registered-nodes sum that `collect` reports, plus one, equals the
number of live reachable nodes plus the number of stale links: each visited
node contributes its full registry size (stale entries included) and never
itself. -/
theorem totals_reg_add_one : ∀ n : MNode,
    (totals n).reg + 1 = liveNodes n + (totals n).staleAll
  | .mk own r => by
    have h := totalsR_reg_add_liveTop r
    have hs := size_eq_liveTop_add_staleTop r
    simp only [totals, liveNodes]
    omega

/-- Registry-level version of `totals_reg_add_one`. -/
theorem totalsR_reg_add_liveTop : ∀ r : Registry,
    (totalsR r).reg + liveTopR r = liveNodesR r + (totalsR r).staleAll
  | .nil => by simp [totalsR, liveTopR, liveNodesR]
  | .live nm c rest => by
    have hc := totals_reg_add_one c
    have hr := totalsR_reg_add_liveTop rest
    simp only [totalsR, liveTopR, liveNodesR, Totals.add] at *
    omega
  | .stale nm rest => by
    have hr := totalsR_reg_add_liveTop rest
    simp only [totalsR, liveTopR, liveNodesR] at *
    omega
end

theorem lookup_mapSet {α : Type} (name : String) (v : α) :
    ∀ l : List (String × α), (mapSet name v l).lookup name = some v
  | [] => by simp [mapSet, List.lookup]
  | (n, w) :: rest => by
    by_cases h : n = name
    · subst h
      simp [mapSet, List.lookup]
    · have ih := lookup_mapSet name v rest
      have hne : (name == n) = false := by
        simp only [beq_eq_false_iff_ne, ne_eq]
        exact fun e => h e.symm
      simp [mapSet, h, List.lookup, ih, hne]

theorem mem_keys_mapSet {α : Type} (name x : String) (v : α) :
    ∀ l : List (String × α), x ∈ (mapSet name v l).map Prod.fst →
      x = name ∨ x ∈ l.map Prod.fst
  | [] => by simp [mapSet]
  | (n, w) :: rest => by
    intro hx
    by_cases h : n = name
    · subst h
      simpa [mapSet] using hx
    · simp only [mapSet, if_neg h, List.map_cons, List.mem_cons] at hx
      rcases hx with h1 | h2
      · exact Or.inr (by simp [h1])
      · rcases mem_keys_mapSet name x v rest h2 with h3 | h4
        · exact Or.inl h3
        · exact Or.inr (by simp [h4])

theorem keys_entryDataOf :
    ∀ (fs : List ProtoField) (data : List (String × OpMonValue)) (x : String),
      x ∈ (entryDataOf fs data).map Prod.fst →
      x ∈ data.map Prod.fst ∨ ∃ g, g ∈ fs ∧ g.is_repeated = false ∧ g.name = x
  | [], data, x => by simp [entryDataOf]
  | f :: rest, data, x => by
    simp only [entryDataOf]
    by_cases hrep : f.is_repeated
    · simp only [if_pos hrep]
      intro hx
      rcases keys_entryDataOf rest data x hx with h | ⟨g, hg, h1, h2⟩
      · exact Or.inl h
      · exact Or.inr ⟨g, by simp [hg], h1, h2⟩
    · simp only [if_neg hrep]
      cases hfv : fieldValue f with
      | none =>
        intro hx
        rcases keys_entryDataOf rest data x hx with h | ⟨g, hg, h1, h2⟩
        · exact Or.inl h
        · exact Or.inr ⟨g, by simp [hg], h1, h2⟩
      | some v =>
        intro hx
        rcases keys_entryDataOf rest (mapSet f.name v data) x hx with h | ⟨g, hg, h1, h2⟩
        · rcases mem_keys_mapSet f.name x v data h with h3 | h4
          · exact Or.inr ⟨f, by simp, by simp [Bool.eq_false_iff, hrep], h3.symm⟩
          · exact Or.inl h4
        · exact Or.inr ⟨g, by simp [hg], h1, h2⟩

theorem entryDataOf_unmapped :
    ∀ (fs : List ProtoField) (data : List (String × OpMonValue)),
      (∀ f ∈ fs, f.is_repeated = true ∨ f.cpp_type ≠ CppType.int32) →
      entryDataOf fs data = data
  | [], _, _ => rfl
  | f :: rest, data, h => by
    have hrest : ∀ g ∈ rest, g.is_repeated = true ∨ g.cpp_type ≠ CppType.int32 :=
      fun g hg => h g (by simp [hg])
    have ih := entryDataOf_unmapped rest data hrest
    rcases h f (by simp) with h1 | h2
    · simp [entryDataOf, h1, ih]
    · have hfv : fieldValue f = none := by
        unfold fieldValue
        cases hc : f.cpp_type <;> simp_all
      by_cases hb : f.is_repeated
      · simp [entryDataOf, hb, ih]
      · simp [entryDataOf, hb, hfv, ih]

theorem totalsR_eq_sumCollected : ∀ r : Registry,
    (totalsR r).reg = sumCollected (fun i => i.n_registered_nodes) r ∧
    (totalsR r).pubNodes = sumCollected (fun i => i.n_publishing_nodes) r ∧
    (totalsR r).staleAll = sumCollected (fun i => i.n_invalid_links) r ∧
    (totalsR r).pub = sumCollected (fun i => i.n_published_measurements) r ∧
    (totalsR r).ign = sumCollected (fun i => i.n_ignored_measurements) r ∧
    (totalsR r).err = sumCollected (fun i => i.n_errors) r ∧
    (totalsR r).cpu = sumCollected (fun i => i.cpu_elapsed_time_us) r
  | .nil => by simp [totalsR, sumCollected]
  | .live nm c rest => by
    have ih := totalsR_eq_sumCollected rest
    have hc := collect_eq c
    simp only [totalsR, sumCollected, Totals.add, hc, infoOf]
    omega
  | .stale nm rest => by
    have ih := totalsR_eq_sumCollected rest
    simp only [totalsR, sumCollected]
    omega

theorem staleTop_pruneR : ∀ r : Registry, staleTopR (pruneR r) = 0
  | .nil => rfl
  | .live nm c rest => by
    have ih := staleTop_pruneR rest
    simp [pruneR, staleTopR, ih]
  | .stale nm rest => by
    have ih := staleTop_pruneR rest
    simp [pruneR, ih]

/-- C1: counterexample. The claim says `collect()` on the root returns
`registered_nodes` equal to the number of currently live nodes reachable
from the root, root itself included. For a root with no children the live
reachable count is 1 (the root), but `collect` sets `n_registered_nodes` to
`m_nodes.size()`, which is 0. -/
theorem collect_registered_nodes_ne_live_reachable :
    (collect leafNode).1.n_registered_nodes ≠ liveNodes leafNode := by
  decide

/-- C1 (amended): `registered_nodes` counts every registry entry (live or
stale) of every traversed live node and never the node itself: adding one for
the uncounted root, it equals the number of live reachable nodes plus the
number of stale links pruned (which `collect` itself reports as
`invalid_links`). -/
theorem collect_registered_nodes_characterization (n : MNode) :
    (collect n).1.n_registered_nodes + 1 =
      liveNodes n + (collect n).1.n_invalid_links := by
  have hc := collect_eq n
  have ht := totals_reg_add_one n
  simp only [hc, infoOf]
  omega

/-- C2: counterexample. The claim says all eight aggregate fields of a
resolved child's `collect()` result are summed into the parent's result.
`clockwall_elapsed_time_us` is not: the child's collect reports 5 µs, yet the
parent's result carries only its own 0 µs — the child's value was never
merged (MonitorableObject.cpp lines 150-156 assign seven fields only). -/
theorem collect_clockwall_not_merged :
    (collect clockwallChild).1.clockwall_elapsed_time_us = 5 ∧
    (collect clockwallParent).1.clockwall_elapsed_time_us = 0 := by
  constructor <;> rfl

/-- C2 (amended): during `collect()`, each resolved child's result is merged
additively into the parent's result for exactly seven fields
(registered_nodes, publishing_nodes, invalid_links, published_measurements,
ignored_measurements, errors, cpu_elapsed_time_us);
`clockwall_elapsed_time_us` is not merged — the result carries only the
node's own measured duration. -/
theorem collect_merge_seven_fields (own : OwnState) (r : Registry) :
    (collect (.mk own r)).1.n_registered_nodes =
      r.size + sumCollected (fun i => i.n_registered_nodes) r ∧
    (collect (.mk own r)).1.n_publishing_nodes =
      (if own.published > 0 then 1 else 0) +
        sumCollected (fun i => i.n_publishing_nodes) r ∧
    (collect (.mk own r)).1.n_invalid_links =
      staleTopR r + sumCollected (fun i => i.n_invalid_links) r ∧
    (collect (.mk own r)).1.n_published_measurements =
      own.published + sumCollected (fun i => i.n_published_measurements) r ∧
    (collect (.mk own r)).1.n_ignored_measurements =
      own.ignored + sumCollected (fun i => i.n_ignored_measurements) r ∧
    (collect (.mk own r)).1.n_errors =
      own.errors + hookErrorIncrements own.hook +
        sumCollected (fun i => i.n_errors) r ∧
    (collect (.mk own r)).1.cpu_elapsed_time_us =
      own.cpu_us + sumCollected (fun i => i.cpu_elapsed_time_us) r ∧
    (collect (.mk own r)).1.clockwall_elapsed_time_us = own.wall_us := by
  have hc := collect_eq (.mk own r)
  have hs := totalsR_eq_sumCollected r
  simp only [hc, infoOf, totals, MNode.own]
  simp [hs.1, hs.2.1, hs.2.2.1, hs.2.2.2.1, hs.2.2.2.2.1, hs.2.2.2.2.2.1,
    hs.2.2.2.2.2.2]

/-- C3: if a live child already holds `name`, `register_node` throws the
duplicate-name error and changes nothing — the registry is untouched and the
new child is neither named nor given inherited properties; if only an
expired entry holds `name`, the call succeeds, overwrites the entry, and
emits the non-fatal warning instead of failing. -/
theorem register_node_duplicate_name (nodes : List (String × Nat))
    (alive : Nat → Bool) (name : String) (p q : Nat)
    (h : nodes.lookup name = some q) :
    (alive q = true →
      (register_node nodes alive name p).threw = true ∧
      (register_node nodes alive name p).nodes = nodes ∧
      (register_node nodes alive name p).childName = none ∧
      (register_node nodes alive name p).childInherited = false) ∧
    (alive q = false →
      (register_node nodes alive name p).threw = false ∧
      (register_node nodes alive name p).warned = true ∧
      (register_node nodes alive name p).nodes.lookup name = some p ∧
      (register_node nodes alive name p).childName = some name ∧
      (register_node nodes alive name p).childInherited = true) := by
  constructor
  · intro ha
    simp [register_node, h, ha]
  · intro ha
    simp [register_node, h, ha, lookup_mapSet]

/-- C3 witness: a registry where "x" is held by live node 1 rejects a new
registration of "x"; after node 1 expires, the same registration succeeds
with a warning and overwrites the entry. -/
theorem register_node_duplicate_name_witness :
    ([("x", 1)] : List (String × Nat)).lookup "x" = some 1 ∧
    ((fun i => decide (i = 1)) 1 = true →
      (register_node [("x", 1)] (fun i => decide (i = 1)) "x" 2).threw = true ∧
      (register_node [("x", 1)] (fun i => decide (i = 1)) "x" 2).nodes = [("x", 1)] ∧
      (register_node [("x", 1)] (fun i => decide (i = 1)) "x" 2).childName = none ∧
      (register_node [("x", 1)] (fun i => decide (i = 1)) "x" 2).childInherited = false) ∧
    ((fun _ => false) 1 = false →
      (register_node [("x", 1)] (fun _ => false) "x" 2).threw = false ∧
      (register_node [("x", 1)] (fun _ => false) "x" 2).warned = true ∧
      (register_node [("x", 1)] (fun _ => false) "x" 2).nodes.lookup "x" = some 2 ∧
      (register_node [("x", 1)] (fun _ => false) "x" 2).childName = some "x" ∧
      (register_node [("x", 1)] (fun _ => false) "x" 2).childInherited = true) :=
  ⟨by decide,
   (register_node_duplicate_name [("x", 1)] (fun i => decide (i = 1)) "x" 2 1 (by decide)).1,
   (register_node_duplicate_name [("x", 1)] (fun _ => false) "x" 2 1 (by decide)).2⟩

/-- C4: `collect` erases from the registry exactly the expired entries,
counting each erased entry once in `invalid_links` (the reported total is the
number of stale links in the whole traversed tree), and retains every live
entry; afterwards no stale link remains at this node. In the scenario of a
root R with live child A and owner-dropped child B, `R.collect()` reports
`invalid_links = 1` and B is gone from R's registry. -/
theorem collect_prunes_expired_links :
    (∀ n : MNode,
      (collect n).1.n_invalid_links = (totals n).staleAll ∧
      (collect n).2.registry = pruneR n.registry ∧
      staleTopR ((collect n).2.registry) = 0) ∧
    (collect scenarioRootR).1.n_invalid_links = 1 ∧
    (collect scenarioRootR).1.n_registered_nodes = 2 ∧
    "B" ∉ ((collect scenarioRootR).2).registry.names ∧
    ((collect scenarioRootR).2).registry.names = ["A"] := by
  refine ⟨fun n => ?_, by decide, by decide, by decide, by decide⟩
  have hc := collect_eq n
  cases n with
  | mk own r =>
    refine ⟨?_, ?_, ?_⟩
    · simp [hc, infoOf]
    · simp [hc, pruneSpec, MNode.registry]
    · simp [hc, pruneSpec, MNode.registry, staleTop_pruneR]

/-- C5: every exception of the generation hook is absorbed inside `collect`
(the embedding is a total function: nothing propagates), and an `ers::Issue`
with a chain of `causes` causes bumps this node's error count by one for the
top-level issue plus one per cause — on top of the pre-existing count and the
children's totals. -/
theorem collect_hook_error_chain_counted (own : OwnState) (r : Registry)
    (causes : Nat) (h : own.hook = .ersIssue causes) :
    (collect (.mk own r)).1.n_errors =
      own.errors + (1 + causes) + sumCollected (fun i => i.n_errors) r := by
  have hc := collect_eq (.mk own r)
  have hs := totalsR_eq_sumCollected r
  simp only [hc, infoOf, totals, MNode.own, h, hookErrorIncrements]
  omega

/-- C5 witness: a leaf with 4 already-counted errors whose hook throws an
issue with 2 chained causes ends the round with 4 + 3 errors reported. -/
theorem collect_hook_error_chain_counted_witness :
    (⟨0, 0, 4, 0, .ersIssue 2, 0⟩ : OwnState).hook = HookOutcome.ersIssue 2 ∧
    (collect (.mk ⟨0, 0, 4, 0, .ersIssue 2, 0⟩ .nil)).1.n_errors =
      4 + (1 + 2) + sumCollected (fun i => i.n_errors) .nil :=
  ⟨rfl, collect_hook_error_chain_counted ⟨0, 0, 4, 0, .ersIssue 2, 0⟩ .nil 2 rfl⟩

/-- C6: a `publish` call whose level fails the publishable predicate
increments only the ignored counter, never invokes the facility, and leaves
the published and error counters unchanged. -/
theorem publish_level_suppression (st : PublishCounters) (l configured : Nat)
    (entryData : List (String × OpMonValue)) (sinkOk : Bool) (d : Nat)
    (h : publishable_metric l configured = false) :
    (publish st l configured entryData sinkOk d).counters.ignored =
      st.ignored + 1 ∧
    (publish st l configured entryData sinkOk d).sinkCalled = false ∧
    (publish st l configured entryData sinkOk d).counters.published =
      st.published ∧
    (publish st l configured entryData sinkOk d).counters.errors = st.errors := by
  simp [publish, h]

/-- C6 witness: level 5 against configured level 3 is suppressed. -/
theorem publish_level_suppression_witness :
    publishable_metric 5 3 = false ∧
    (publish ⟨7, 2, 1, 9⟩ 5 3 [("x", .int4_value 4)] true 6).counters.ignored =
      2 + 1 ∧
    (publish ⟨7, 2, 1, 9⟩ 5 3 [("x", .int4_value 4)] true 6).sinkCalled = false ∧
    (publish ⟨7, 2, 1, 9⟩ 5 3 [("x", .int4_value 4)] true 6).counters.published =
      7 ∧
    (publish ⟨7, 2, 1, 9⟩ 5 3 [("x", .int4_value 4)] true 6).counters.errors =
      1 :=
  ⟨by decide,
   publish_level_suppression ⟨7, 2, 1, 9⟩ 5 3 [("x", .int4_value 4)] true 6
     (by decide)⟩

/-- C7: a `publish` call that passes the level check but whose flattened
entry has an empty data mapping emits the `EntryWithNoData` warning, never
touches the facility, and returns with published, ignored and error counters
all unchanged. -/
theorem publish_empty_entry_logged_drop (st : PublishCounters)
    (l configured : Nat) (entryData : List (String × OpMonValue))
    (sinkOk : Bool) (d : Nat) (h1 : publishable_metric l configured = true)
    (h2 : entryData = []) :
    (publish st l configured entryData sinkOk d).warnedNoData = true ∧
    (publish st l configured entryData sinkOk d).sinkCalled = false ∧
    (publish st l configured entryData sinkOk d).counters.published =
      st.published ∧
    (publish st l configured entryData sinkOk d).counters.ignored =
      st.ignored ∧
    (publish st l configured entryData sinkOk d).counters.errors = st.errors := by
  subst h2
  simp [publish, h1]

/-- C7 witness: a publishable level with an empty data mapping is the
logged-drop outcome. -/
theorem publish_empty_entry_logged_drop_witness :
    publishable_metric 1 3 = true ∧ ([] : List (String × OpMonValue)) = [] ∧
    (publish ⟨7, 2, 1, 9⟩ 1 3 [] false 6).warnedNoData = true ∧
    (publish ⟨7, 2, 1, 9⟩ 1 3 [] false 6).sinkCalled = false ∧
    (publish ⟨7, 2, 1, 9⟩ 1 3 [] false 6).counters.published = 7 ∧
    (publish ⟨7, 2, 1, 9⟩ 1 3 [] false 6).counters.ignored = 2 ∧
    (publish ⟨7, 2, 1, 9⟩ 1 3 [] false 6).counters.errors = 1 :=
  ⟨by decide, rfl,
   publish_empty_entry_logged_drop ⟨7, 2, 1, 9⟩ 1 3 [] false 6 (by decide) rfl⟩

/-- C10: the running cpu counter is untouched by both early returns of
`publish` (level suppression and empty data mapping) and accumulates the
call's measured duration exactly when execution reaches the sink-forwarding
step, whether the facility succeeds or throws. -/
theorem publish_cpu_time_accounting (st : PublishCounters) (l configured : Nat)
    (entryData : List (String × OpMonValue)) (sinkOk : Bool) (d : Nat) :
    (publish st l configured entryData sinkOk d).counters.cpu_us =
      if publishable_metric l configured = true ∧ entryData ≠ [] then
        st.cpu_us + d
      else st.cpu_us := by
  by_cases h1 : publishable_metric l configured
  · by_cases h2 : entryData = []
    · subst h2
      simp [publish, h1]
    · have h2e : entryData.isEmpty = false := by
        simpa [List.isEmpty_iff] using h2
      by_cases h3 : sinkOk <;> simp [publish, h1, h2, h2e, h3]
  · have h1f : publishable_metric l configured = false := by
      simpa using h1
    simp [publish, h1f, h1]

/-- C8: no repeated field of a measurement ever appears as a key of the
flattened entry's data mapping (field names in a protobuf descriptor are
distinct), whatever the field's native kind; consequently an entry appended
by `OpMonContainer::add` never carries such a key. -/
theorem flatten_repeated_fields_absent (m : ProtoMessage)
    (hnd : (m.fields.map ProtoField.name).Nodup) (f : ProtoField)
    (hf : f ∈ m.fields) (hrep : f.is_repeated = true) :
    f.name ∉ (entryDataOf m.fields []).map Prod.fst ∧
    ∀ entries id now e, e ∈ OpMonContainer.add entries m id now →
      e ∈ entries ∨ f.name ∉ e.data.map Prod.fst := by
  have hmain : f.name ∉ (entryDataOf m.fields []).map Prod.fst := by
    intro hx
    rcases keys_entryDataOf m.fields [] f.name hx with h | ⟨g, hg, hgrep, hgname⟩
    · simp at h
    · have hgf : g = f :=
        List.inj_on_of_nodup_map hnd hg hf hgname
      rw [hgf] at hgrep
      rw [hrep] at hgrep
      exact Bool.noConfusion hgrep
  refine ⟨hmain, ?_⟩
  intro entries id now e he
  simp only [OpMonContainer.add] at he
  split at he
  · rcases List.mem_append.1 he with h | h
    · exact Or.inl h
    · simp only [List.mem_singleton] at h
      subst h
      exact Or.inr hmain
  · exact Or.inl he

/-- C8 witness: a measurement with a repeated int32 field "a" and a plain
int32 field "b" flattens to a data mapping without the key "a". -/
theorem flatten_repeated_fields_absent_witness :
    ((ProtoMessage.mk "M" [⟨"a", true, .int32, 1⟩, ⟨"b", false, .int32, 2⟩]).fields.map
        ProtoField.name).Nodup ∧
    (⟨"a", true, .int32, 1⟩ : ProtoField) ∈
      (ProtoMessage.mk "M" [⟨"a", true, .int32, 1⟩, ⟨"b", false, .int32, 2⟩]).fields ∧
    (⟨"a", true, .int32, 1⟩ : ProtoField).is_repeated = true ∧
    "a" ∉ (entryDataOf
      (ProtoMessage.mk "M" [⟨"a", true, .int32, 1⟩, ⟨"b", false, .int32, 2⟩]).fields
      []).map Prod.fst :=
  ⟨by decide, by decide, by decide,
   (flatten_repeated_fields_absent
     (ProtoMessage.mk "M" [⟨"a", true, .int32, 1⟩, ⟨"b", false, .int32, 2⟩])
     (by decide) ⟨"a", true, .int32, 1⟩ (by decide) (by decide)).1⟩

/-- C9: a measurement with zero non-repeated kind-mapped fields yields no
entry at all — `OpMonContainer::add` leaves the container unchanged — and
`add` preserves the invariant that every stored entry has a non-empty data
mapping, so an entry with empty data is never materialized. -/
theorem flatten_empty_yields_no_entry (m : ProtoMessage) :
    ((∀ f ∈ m.fields, f.is_repeated = true ∨ f.cpp_type ≠ CppType.int32) →
      ∀ entries id now, OpMonContainer.add entries m id now = entries) ∧
    (∀ entries id now, (∀ e ∈ entries, e.data ≠ []) →
      ∀ e ∈ OpMonContainer.add entries m id now, e.data ≠ []) := by
  constructor
  · intro h entries id now
    simp [OpMonContainer.add, entryDataOf_unmapped m.fields [] h]
  · intro entries id now hinv e he
    simp only [OpMonContainer.add] at he
    split at he
    · next hlen =>
      rcases List.mem_append.1 he with h | h
      · exact hinv e h
      · simp only [List.mem_singleton] at h
        subst h
        intro hdata
        have hd : entryDataOf m.fields [] = [] := hdata
        rw [hd] at hlen
        simp at hlen
    · exact hinv e he

/-- C9 witness: a measurement with only a repeated int32 field and a
non-repeated string field appends nothing to an empty container. -/
theorem flatten_empty_yields_no_entry_witness :
    (∀ f ∈ (ProtoMessage.mk "M" [⟨"a", true, .int32, 1⟩, ⟨"s", false, .string, 0⟩]).fields,
      f.is_repeated = true ∨ f.cpp_type ≠ CppType.int32) ∧
    OpMonContainer.add []
      (ProtoMessage.mk "M" [⟨"a", true, .int32, 1⟩, ⟨"s", false, .string, 0⟩])
      "id" 0 = [] :=
  ⟨by decide,
   (flatten_empty_yields_no_entry
     (ProtoMessage.mk "M" [⟨"a", true, .int32, 1⟩, ⟨"s", false, .string, 0⟩])).1
     (by decide) [] "id" 0⟩
